import Mathlib

/-
  Verification development for the session scheduling and lifecycle engine
  (sessions/rescheduleSessions.py and sessions/session_status.py of the
  thrive backend).

  Modelling conventions:
  * Calendar dates are day counts from a fixed Monday epoch, so `d % 7`
    coincides with Python's `date.weekday()` (0 = Monday .. 6 = Sunday)
    and `dayName` plays the role of `strftime("%A")`.  ISO date strings
    order exactly like their day counts, so string comparisons on dates
    in the source become Nat comparisons here.
  * Times of day are seconds since midnight.  Every time comparison in
    the source is an order comparison, and the punctuality module turns
    second differences into minutes by truncated division by 60, which
    is Nat division here.
  * Values the source obtains by parsing strings (parse_date_string,
    _parse_time_value, _parse_time_string) are modelled as Option Nat:
    none is a missing or unparsable value.
  * The backing store (supabase "sessions" table) is a list of session
    rows; queries are filters over it and updates map over it.  The
    updated_at timestamp is an abstract Nat token supplied by the
    caller, standing for utc_now_iso().
-/

deriving instance DecidableEq for Except

/- Weekday name of a day count, mirroring target_date.strftime("%A"). -/
def dayName (d : Nat) : String :=
  if d % 7 = 0 then "Monday"
  else if d % 7 = 1 then "Tuesday"
  else if d % 7 = 2 then "Wednesday"
  else if d % 7 = 3 then "Thursday"
  else if d % 7 = 4 then "Friday"
  else if d % 7 = 5 then "Saturday"
  else "Sunday"

/- Zero-padded two-digit rendering, as strftime zero-pads fields. -/
def pad2 (n : Nat) : String :=
  if n < 10 then "0" ++ toString n else toString n

/- Render seconds-since-midnight as "HH:MM", mirroring strftime("%H:%M"). -/
def formatHM (t : Nat) : String :=
  pad2 (t / 3600) ++ ":" ++ pad2 (t % 3600 / 60)

/- One weekday's availability template.  The source keeps these as raw
   dicts; `enabled` models entry.get("enabled", False) and the optional
   bounds model _parse_time_value of entry["startTime"] / ["endTime"]. -/
structure WorkingHoursEntry where
  day : String
  enabled : Bool
  startTime : Option Nat
  endTime : Option Nat
  deriving Repr, DecidableEq

/- A therapist-declared exclusion window (freeHours entry). -/
structure FreeTimeBlock where
  day : String
  startTime : Option Nat
  endTime : Option Nat
  purpose : Option String
  deriving Repr, DecidableEq

/- _get_working_hours_map builds a dict keyed by day name (later list
   entries overwrite earlier ones) and _check_working_hours reads it
   with .get; the composition is this last-match lookup. -/
def _get_working_hours_map (workingHours : List WorkingHoursEntry)
    (dn : String) : Option WorkingHoursEntry :=
  workingHours.foldl (fun acc entry => if entry.day = dn then some entry else acc) none

/- Second half of _check_working_hours: the end-of-window bound test
   (`if end_bound and session_end > end_bound`). -/
def _check_wh_end (dn : String) (sessionEnd : Nat) (endBound : Option Nat) :
    Option String :=
  match endBound with
  | some eb =>
    if eb < sessionEnd then
      some ("Session ends after working hours on " ++ dn ++ " (" ++
        formatHM sessionEnd ++ " vs " ++ formatHM eb ++ ").")
    else none
  | none => none

/- Bounds portion of _check_working_hours for an enabled entry:
   start bound first, then end bound, each skipped when unparsable. -/
def _check_wh_bounds (dn : String) (sessionStart sessionEnd : Nat)
    (startBound endBound : Option Nat) : Option String :=
  match startBound with
  | some sb =>
    if sessionStart < sb then
      some ("Session starts before working hours on " ++ dn ++ " (" ++
        formatHM sessionStart ++ " vs " ++ formatHM sb ++ ").")
    else _check_wh_end dn sessionEnd endBound
  | none => _check_wh_end dn sessionEnd endBound

/- _check_working_hours: none = the candidate passes, some msg = the
   violation reason.  Mirrors the source branch for branch. -/
def _check_working_hours (targetDate sessionStart sessionEnd : Nat)
    (workingHoursMap : List WorkingHoursEntry) (includeWeekends : Bool) :
    Option String :=
  let dn := dayName targetDate
  if 5 ≤ targetDate % 7 ∧ includeWeekends = true then none
  else
    match _get_working_hours_map workingHoursMap dn with
    | none =>
      if 5 ≤ targetDate % 7 then
        some (dn ++ " is not configured as a working day. " ++
          "Enable weekend hours or include weekends in reschedule settings.")
      else none
    | some daySchedule =>
      if daySchedule.enabled = false then
        some (dn ++ " is not marked as a working day in your schedule.")
      else
        _check_wh_bounds dn sessionStart sessionEnd
          daySchedule.startTime daySchedule.endTime

/- block.get("purpose") or "Personal time" (empty string is falsy). -/
def purposeLabel (purpose : Option String) : String :=
  match purpose with
  | some p => if p = "" then "Personal time" else p
  | none => "Personal time"

/- Scan of the free-time blocks inside _check_free_time: blocks for
   other days or with unparsable bounds are skipped, the first strictly
   overlapping block yields the violation message. -/
def freeTimeScan (dn : String) (sessionStart sessionEnd : Nat) :
    List FreeTimeBlock → Option String
  | [] => none
  | b :: rest =>
    if b.day ≠ dn then freeTimeScan dn sessionStart sessionEnd rest
    else
      match b.startTime, b.endTime with
      | some bs, some be =>
        if sessionStart < be ∧ bs < sessionEnd then
          some ("Session overlaps with your free time block " ++
            purposeLabel b.purpose ++ " (" ++ formatHM bs ++ " - " ++
            formatHM be ++ ").")
        else freeTimeScan dn sessionStart sessionEnd rest
      | _, _ => freeTimeScan dn sessionStart sessionEnd rest

/- _check_free_time. -/
def _check_free_time (targetDate sessionStart sessionEnd : Nat)
    (freeHours : List FreeTimeBlock) : Option String :=
  freeTimeScan (dayName targetDate) sessionStart sessionEnd freeHours

/- _sessions_overlap: strict half-open interval overlap. -/
def _sessions_overlap (existingStart existingEnd newStart newEnd : Nat) : Bool :=
  decide (newStart < existingEnd) && decide (newEnd > existingStart)

/- The per-operation occupancy map: date -> busy intervals, as an
   insertion-ordered association list (a Python dict). -/
abbrev Occupancy := List (Nat × List (Nat × Nat))

/- occupancy.get(target_date, []). -/
def occLookup : Occupancy → Nat → List (Nat × Nat)
  | [], _ => []
  | (d0, slots) :: rest, d => if d0 = d then slots else occLookup rest d

/- _add_to_occupancy_map: occupancy.setdefault(date, []).append(slot).
   The first entry for the date receives the append; a fresh date is
   appended at the end, as dict insertion order dictates. -/
def _add_to_occupancy_map : Occupancy → Nat → Nat → Nat → Occupancy
  | [], d, s, e => [(d, [(s, e)])]
  | (d0, slots) :: rest, d, s, e =>
    if d0 = d then (d0, slots ++ [(s, e)]) :: rest
    else (d0, slots) :: _add_to_occupancy_map rest d s e

/- _has_time_conflict: any busy interval on the date strictly overlaps. -/
def _has_time_conflict (occupancy : Occupancy) (targetDate sessionStart sessionEnd : Nat) :
    Bool :=
  (occLookup occupancy targetDate).any
    (fun slot => _sessions_overlap slot.1 slot.2 sessionStart sessionEnd)

/- Bounded weekend skip.  The source loop `while weekday >= 5: +1 day`
   runs at most twice (Saturday, Sunday are the only weekdays >= 5 and
   they are consecutive mod 7), so fuel 2 reproduces it exactly. -/
def skipWeekendFuel : Nat → Nat → Nat
  | 0, d => d
  | fuel + 1, d => if 5 ≤ d % 7 then skipWeekendFuel fuel (d + 1) else d

/- _shift_date_by_one. -/
def _shift_date_by_one (original : Nat) (includeWeekends : Bool) : Nat :=
  let newDate := original + 1
  if includeWeekends then newDate else skipWeekendFuel 2 newDate

/- Loop body of _find_next_available_date: the fuel is the remaining
   range(max_iterations) budget; candidate / triedSameDay are the two
   mutable loop variables of the source. -/
def findNextAvailableLoop (includeWeekends allowSameDay : Bool)
    (sessionStart sessionEnd : Nat) (workingHoursMap : List WorkingHoursEntry)
    (freeHours : List FreeTimeBlock) (occupancy : Occupancy) :
    Nat → Nat → Bool → Except String Nat
  | 0, _, _ =>
    .error "Unable to find a suitable date for cascade reschedule within a year."
  | fuel + 1, candidate, triedSameDay =>
    let cand :=
      if allowSameDay && !triedSameDay then candidate
      else _shift_date_by_one candidate includeWeekends
    let tried :=
      if allowSameDay && !triedSameDay then true else triedSameDay
    if (_check_working_hours cand sessionStart sessionEnd workingHoursMap
        includeWeekends).isSome then
      findNextAvailableLoop includeWeekends allowSameDay sessionStart sessionEnd
        workingHoursMap freeHours occupancy fuel cand tried
    else if (_check_free_time cand sessionStart sessionEnd freeHours).isSome then
      findNextAvailableLoop includeWeekends allowSameDay sessionStart sessionEnd
        workingHoursMap freeHours occupancy fuel cand tried
    else if _has_time_conflict occupancy cand sessionStart sessionEnd then
      findNextAvailableLoop includeWeekends allowSameDay sessionStart sessionEnd
        workingHoursMap freeHours occupancy fuel cand tried
    else .ok cand

/- _find_next_available_date (raise becomes .error). -/
def _find_next_available_date (startFrom : Nat) (includeWeekends allowSameDay : Bool)
    (sessionStart sessionEnd : Nat) (workingHoursMap : List WorkingHoursEntry)
    (freeHours : List FreeTimeBlock) (occupancy : Occupancy)
    (maxIterations : Nat := 365) : Except String Nat :=
  findNextAvailableLoop includeWeekends allowSameDay sessionStart sessionEnd
    workingHoursMap freeHours occupancy maxIterations startFrom false

example :
    _find_next_available_date 7 false false 36000 37800
      [{ day := "Monday", enabled := true, startTime := some 32400,
         endTime := some 61200 }] [] [] = .ok 8 := by decide

example :
    _find_next_available_date 7 false true 36000 37800 [] []
      [(7, [(36000, 37800)])] = .ok 8 := by decide

/- A row of the sessions table.  studentName stands for the formatted
   children-join name (_format_student_name), therapistNotes for the
   therapist_notes column, updatedAt for the updated_at timestamp. -/
structure StoredSession where
  id : Nat
  therapistId : Nat
  childId : Option Nat
  sessionDate : Option Nat
  startTime : Option Nat
  endTime : Option Nat
  status : String
  therapistNotes : Option String
  updatedAt : Nat
  studentName : String
  deriving Repr, DecidableEq

abbrev Db := List StoredSession

/- _fetch_session: select by id and therapist_id (ownership filter). -/
def _fetch_session (db : Db) (therapistId sessionId : Nat) : Option StoredSession :=
  db.find? (fun r => r.id == sessionId && r.therapistId == therapistId)

/- _fetch_child_sessions: the learner's scheduled sessions from
   start_date onward.  gte on a missing date behaves like SQL NULL and
   filters the row out. -/
def _fetch_child_sessions (db : Db) (therapistId childId startDate : Nat) :
    List StoredSession :=
  db.filter (fun r =>
    r.therapistId == therapistId && r.childId == some childId &&
    r.status == "scheduled" &&
    (match r.sessionDate with
     | some d => decide (startDate ≤ d)
     | none => false))

/- Sort key ordering used by the orchestrator's client-side sort:
   (session_date or "", start_time or "", id or 0) ascending.  A missing
   value sorts first, as "" does among ISO strings. -/
def optNatLt : Option Nat → Option Nat → Bool
  | none, some _ => true
  | none, none => false
  | some _, none => false
  | some a, some b => decide (a < b)

def rowKeyLe (a b : StoredSession) : Bool :=
  optNatLt a.sessionDate b.sessionDate ||
  (a.sessionDate == b.sessionDate &&
    (optNatLt a.startTime b.startTime ||
     (a.startTime == b.startTime && a.id ≤ b.id)))

/- Stable insertion sort standing for Python's sorted(...). -/
def insertRow (r : StoredSession) : List StoredSession → List StoredSession
  | [] => [r]
  | x :: xs => if rowKeyLe r x then r :: x :: xs else x :: insertRow r xs

def sortRows (rows : List StoredSession) : List StoredSession :=
  rows.foldr insertRow []

/- The anchor is pulled to the front (insert(0, row)); everything else
   keeps the sorted order (append). -/
def reorderAnchorFirst (sessionId : Nat) (rows : List StoredSession) :
    List StoredSession :=
  rows.foldl (fun acc row => if row.id == sessionId then row :: acc else acc ++ [row]) []

/- _build_therapist_occupancy: all of the therapist's scheduled sessions
   from start_date onward, minus the batch being rescheduled, grouped by
   date; rows with unparsable date or times are silently skipped. -/
def occupancyStep (excludeIds : List Nat) (occ : Occupancy) (r : StoredSession) :
    Occupancy :=
  if excludeIds.contains r.id then occ
  else
    match r.sessionDate, r.startTime, r.endTime with
    | some d, some s, some e => _add_to_occupancy_map occ d s e
    | _, _, _ => occ

def _build_therapist_occupancy (db : Db) (therapistId : Nat)
    (excludeIds : List Nat) (startDate : Nat) : Occupancy :=
  (db.filter (fun r =>
    r.therapistId == therapistId && r.status == "scheduled" &&
    (match r.sessionDate with
     | some d => decide (startDate ≤ d)
     | none => false))).foldl (occupancyStep excludeIds) []

/- One resolved placement of the cascade loop. -/
structure ProposedUpdate where
  session : StoredSession
  previousDate : Nat
  newDate : Nat
  deriving Repr, DecidableEq

/- One element of the returned updated_sessions list. -/
structure UpdatedInfo where
  sessionId : Nat
  studentName : String
  previousDate : Nat
  newDate : Nat
  startTime : Option Nat
  endTime : Option Nat
  deriving Repr, DecidableEq

def mkUpdatedInfo (u : ProposedUpdate) : UpdatedInfo :=
  { sessionId := u.session.id, studentName := u.session.studentName,
    previousDate := u.previousDate, newDate := u.newDate,
    startTime := u.session.startTime, endTime := u.session.endTime }

structure CascadeResult where
  totalUpdated : Nat
  sessions : List UpdatedInfo
  includeWeekends : Bool
  deriving Repr, DecidableEq

/- baseline = max(original_date, today); if last_assigned_date and
   last_assigned_date > baseline: baseline = last_assigned_date. -/
def placeBaseline (originalDate today : Nat) (lastAssigned : Option Nat) : Nat :=
  let baseline0 := max originalDate today
  match lastAssigned with
  | some l => if baseline0 < l then l else baseline0
  | none => baseline0

/- The in-memory placement loop of cascade_reschedule_sessions (the
   `for index, session_row in enumerate(...)` block): validates each
   row, searches a date, and folds the chosen interval into the shared
   occupancy map before the next row is placed. -/
def placeSessions (includeWeekends : Bool) (workingHoursMap : List WorkingHoursEntry)
    (freeHours : List FreeTimeBlock) (today : Nat) :
    List StoredSession → Occupancy → Option Nat → Nat →
    Except String (List ProposedUpdate × Occupancy)
  | [], occ, _, _ => .ok ([], occ)
  | row :: rest, occ, lastAssigned, index =>
    match row.startTime, row.endTime with
    | some s, some e =>
      if e ≤ s then
        .error ("One or more sessions have invalid time ranges. Please fix those " ++
          "sessions manually before cascading reschedule.")
      else
        match row.sessionDate with
        | none => .error "Unable to parse session date for an upcoming session."
        | some originalDate =>
          match _find_next_available_date (placeBaseline originalDate today lastAssigned)
              includeWeekends (index != 0) s e workingHoursMap freeHours occ with
          | .error msg => .error msg
          | .ok newDate =>
            match placeSessions includeWeekends workingHoursMap freeHours today
                rest (_add_to_occupancy_map occ newDate s e) (some newDate)
                (index + 1) with
            | .ok (updates, occF) =>
              .ok ({ session := row, previousDate := originalDate,
                     newDate := newDate } :: updates, occF)
            | .error msg => .error msg
    | _, _ =>
      .error ("One or more sessions have incomplete timing information. " ++
        "Please reschedule them individually.")

/- The persistence loop: each session's new date is written one at a
   time (session_date and updated_at only), still scoped by therapist;
   an update that matches no row aborts, leaving earlier writes in
   place (the known no-rollback gap). -/
def persistUpdates (therapistId now : Nat) :
    List ProposedUpdate → Db → Except String (List UpdatedInfo) × Db
  | [], db => (.ok [], db)
  | u :: rest, db =>
    if db.any (fun r => r.id == u.session.id && r.therapistId == therapistId) then
      match persistUpdates therapistId now rest
          (db.map (fun r =>
            if r.id == u.session.id && r.therapistId == therapistId then
              { r with sessionDate := some u.newDate, updatedAt := now }
            else r)) with
      | (.ok infos, dbF) => (.ok (mkUpdatedInfo u :: infos), dbF)
      | (.error e, dbF) => (.error e, dbF)
    else
      (.error ("Failed to update session " ++ toString u.session.id ++
        " during reschedule."), db)

/- cascade_reschedule_sessions.  The settings provider (working hours
   and free-time blocks) and the two clock readings (today's date and
   the updated_at token) are inputs; raises become .error and the
   second component is the sessions table after the call. -/
def cascade_reschedule_sessions (db : Db) (sessionId therapistId : Nat)
    (includeWeekends : Bool) (workingHours : List WorkingHoursEntry)
    (freeHours : List FreeTimeBlock) (today now : Nat) :
    Except String CascadeResult × Db :=
  match _fetch_session db therapistId sessionId with
  | none => (.error "Session not found or access denied.", db)
  | some target =>
    match target.sessionDate with
    | none => (.error "Session date is invalid and cannot be parsed.", db)
    | some targetDate =>
      match target.childId with
      | none => (.error "Session is missing child information for reschedule.", db)
      | some childId =>
        if childId = 0 then
          (.error "Session is missing child information for reschedule.", db)
        else
          let fetchStartDate := min targetDate today
          let upcoming := _fetch_child_sessions db therapistId childId fetchStartDate
          if upcoming.isEmpty then
            (.error "No upcoming scheduled sessions found to reschedule.", db)
          else
            let sessionsToReschedule := reorderAnchorFirst sessionId (sortRows upcoming)
            let sessionIds :=
              (sessionsToReschedule.filter (fun r => r.id ≠ 0)).map (fun r => r.id)
            let occupancy :=
              _build_therapist_occupancy db therapistId sessionIds
                (min fetchStartDate today)
            match placeSessions includeWeekends workingHours freeHours today
                sessionsToReschedule occupancy none 0 with
            | .error e => (.error e, db)
            | .ok (updates, _) =>
              match persistUpdates therapistId now updates db with
              | (.ok infos, dbF) =>
                (.ok { totalUpdated := infos.length, sessions := infos,
                       includeWeekends := includeWeekends }, dbF)
              | (.error e, dbF) => (.error e, dbF)

/- ==================== session_status.py ==================== -/

/- _validate_status_transition: the transition table, with dict.get
   defaulting to the empty list for unknown statuses. -/
def _validate_status_transition (currentStatus newStatus : String) : Bool :=
  let allowed : List String :=
    if currentStatus = "scheduled" then ["ongoing", "cancelled"]
    else if currentStatus = "ongoing" then ["completed", "cancelled"]
    else if currentStatus = "completed" then []
    else if currentStatus = "cancelled" then []
    else []
  decide (newStatus ∈ allowed)

/- The transition table of the specification, stated independently so
   that the implementation can be compared against it. -/
def transitionTable : List (String × String) :=
  [("scheduled", "ongoing"), ("scheduled", "cancelled"),
   ("ongoing", "completed"), ("ongoing", "cancelled")]

structure SessionStatusResponse where
  sessionId : Nat
  previousStatus : String
  currentStatus : String
  updatedAt : Nat
  updatedBy : Option Nat
  deriving Repr, DecidableEq

/- _get_session_details: select by id only (no therapist filter). -/
def findSession (db : Db) (sessionId : Nat) : Option StoredSession :=
  db.find? (fun r => r.id == sessionId)

/- update_session_status.  .ok none is the "not found" / "no row
   updated" return of None, .error is the re-raised exception; the
   second component is the sessions table after the call (unchanged on
   every failure path, since the raise precedes the write). -/
def update_session_status (db : Db) (sessionId : Nat) (newStatus : String)
    (therapistId : Option Nat) (now : Nat) :
    Except String (Option SessionStatusResponse) × Db :=
  match findSession db sessionId with
  | none => (.ok none, db)
  | some sess =>
    if _validate_status_transition sess.status newStatus then
      let db' := db.map (fun r =>
        if r.id = sessionId then { r with status := newStatus, updatedAt := now }
        else r)
      if db.any (fun r => r.id == sessionId) then
        (.ok (some { sessionId := sessionId, previousStatus := sess.status,
                     currentStatus := newStatus, updatedAt := now,
                     updatedBy := therapistId }), db')
      else (.ok none, db')
    else
      (.error ("Database error: Invalid status transition: " ++ sess.status ++
        " -> " ++ newStatus), db)

/- _update_assessment_details_for_child wraps its whole body in
   try/except and never re-raises:  whatever the aggregation computes
   over the children table, a failure leaves the children state as it
   was.  The body itself (activity queries, JSON score parsing and the
   assessment_due -> active promotion) only touches the children-side
   state sigma and is passed in as a fallible state transformer. -/
def _update_assessment_details_for_child {σ : Type} (body : Except String σ)
    (children : σ) : σ :=
  match body with
  | .ok children' => children'
  | .error _ => children

/- complete_session: the ongoing -> completed transition, then the
   optional therapist_notes write, then the assessment hook whose
   errors are swallowed.  sigma is the children-table state. -/
def complete_session {σ : Type} (db : Db) (children : σ) (sessionId : Nat)
    (therapistId : Option Nat) (therapistNotes : Option String) (now : Nat)
    (assessmentBody : Db → σ → Except String σ) :
    Except String (Option SessionStatusResponse) × Db × σ :=
  match update_session_status db sessionId "completed" therapistId now with
  | (.error e, db1) => (.error e, db1, children)
  | (.ok none, db1) => (.ok none, db1, children)
  | (.ok (some resp), db1) =>
    let db2 :=
      match therapistNotes with
      | some _ =>
        db1.map (fun r =>
          if r.id = sessionId then
            { r with therapistNotes := therapistNotes, updatedAt := now }
          else r)
      | none => db1
    (.ok (some resp), db2,
      _update_assessment_details_for_child (assessmentBody db2 children) children)

/- ==================== login-based session checking ==================== -/

structure NotificationPayload where
  notificationId : String
  ptype : String
  message : String
  sessionId : String
  timestamp : Nat
  studentName : String
  minutesLate : Option Nat
  sessionStartTime : Option Nat
  minutesRemaining : Option Nat
  notificationType : String
  deriving Repr, DecidableEq

structure LoginCheckResult where
  success : Bool
  message : String
  notificationPayload : Option NotificationPayload
  sessionsUpdated : Nat
  totalSessionsToday : Option Nat
  firstSessionTime : Option Nat
  deriving Repr, DecidableEq

/- The single except-branch of check_sessions_on_login. -/
def loginFailure (e : String) : LoginCheckResult :=
  { success := false, message := "Failed to check sessions: " ++ e,
    notificationPayload := none, sessionsUpdated := 0,
    totalSessionsToday := none, firstSessionTime := none }

/- Scenario A payload (late): minutes_late is the truncated minute
   difference between the login moment and the first session's start. -/
def loginSuccessLate (first : StoredSession) (total nowSecs nowStamp
    sessionStart updated : Nat) : LoginCheckResult :=
  { success := true, message := "Login session check completed",
    notificationPayload := some
      { notificationId := "late-" ++ toString first.id ++ "-" ++ toString nowStamp,
        ptype := "LATE_ALERT",
        message := "You are late to the session with " ++ first.studentName ++
          ". Session has been marked as ongoing.",
        sessionId := toString first.id,
        timestamp := nowStamp,
        studentName := first.studentName,
        minutesLate := some ((nowSecs - sessionStart) / 60),
        sessionStartTime := none,
        minutesRemaining := none,
        notificationType := "late" },
    sessionsUpdated := updated,
    totalSessionsToday := some total,
    firstSessionTime := some sessionStart }

/- Scenario B payload (on time / early). -/
def loginSuccessUpcoming (first : StoredSession) (total nowSecs nowStamp
    sessionStart : Nat) : LoginCheckResult :=
  { success := true, message := "Login session check completed",
    notificationPayload := some
      { notificationId := "upcoming-" ++ toString first.id ++ "-" ++
          toString nowStamp,
        ptype := "UPCOMING_SESSION",
        message := "Your next session with " ++ first.studentName ++
          " is scheduled for " ++ formatHM sessionStart,
        sessionId := toString first.id,
        timestamp := nowStamp,
        studentName := first.studentName,
        minutesLate := none,
        sessionStartTime := some sessionStart,
        minutesRemaining := some ((sessionStart - nowSecs) / 60),
        notificationType := "upcoming" },
    sessionsUpdated := 0,
    totalSessionsToday := some total,
    firstSessionTime := some sessionStart }

/- check_sessions_on_login.  fetchOutcome is the record-access answer to
   "today's sessions of this therapist ordered by start_time" (the store
   is the external collaborator and may fail, which the outer try/except
   turns into the failure dictionary).  nowSecs is the login moment as a
   time of day, nowStamp the timestamp token used in ids.  A first
   session whose start time cannot be parsed falls back to the current
   time, exactly as _parse_time_string does. -/
def check_sessions_on_login (db : Db) (therapistId : Nat)
    (fetchOutcome : Except String (List StoredSession))
    (nowSecs nowStamp : Nat) : LoginCheckResult × Db :=
  match fetchOutcome with
  | .error e => (loginFailure e, db)
  | .ok [] =>
    ({ success := true, message := "No sessions scheduled for today",
       notificationPayload := none, sessionsUpdated := 0,
       totalSessionsToday := none, firstSessionTime := none }, db)
  | .ok (first :: rest) =>
    let sessionStart := first.startTime.getD nowSecs
    if sessionStart < nowSecs then
      if first.status = "scheduled" then
        match update_session_status db first.id "ongoing" (some therapistId)
            nowStamp with
        | (.error e, dbU) => (loginFailure e, dbU)
        | (.ok _, dbU) =>
          (loginSuccessLate first (first :: rest).length nowSecs nowStamp
            sessionStart 1, dbU)
      else
        (loginSuccessLate first (first :: rest).length nowSecs nowStamp
          sessionStart 0, db)
    else
      (loginSuccessUpcoming first (first :: rest).length nowSecs nowStamp
        sessionStart, db)


/- ==================== occupancy map lemmas ==================== -/

theorem occLookup_add_same (occ : Occupancy) (d s e : Nat) :
    occLookup (_add_to_occupancy_map occ d s e) d = occLookup occ d ++ [(s, e)] := by
  induction occ with
  | nil => simp [_add_to_occupancy_map, occLookup]
  | cons head rest ih =>
    obtain ⟨d0, slots⟩ := head
    by_cases h : d0 = d
    · simp [_add_to_occupancy_map, occLookup, h]
    · simp [_add_to_occupancy_map, occLookup, h, ih]

theorem occLookup_add_other (occ : Occupancy) (d s e d' : Nat) (hne : d' ≠ d) :
    occLookup (_add_to_occupancy_map occ d s e) d' = occLookup occ d' := by
  induction occ with
  | nil => simp [_add_to_occupancy_map, occLookup, hne.symm]
  | cons head rest ih =>
    obtain ⟨d0, slots⟩ := head
    by_cases h : d0 = d
    · subst h
      simp [_add_to_occupancy_map, occLookup, hne.symm]
    · simp only [_add_to_occupancy_map, if_neg h, occLookup]
      by_cases h' : d0 = d'
      · simp [h']
      · simp [h', ih]

theorem hasConflict_add_same (occ : Occupancy) (d s e s' e' : Nat) :
    _has_time_conflict (_add_to_occupancy_map occ d s e) d s' e'
      = (_has_time_conflict occ d s' e' || _sessions_overlap s e s' e') := by
  simp [_has_time_conflict, occLookup_add_same, List.any_append]

theorem hasConflict_add_other (occ : Occupancy) (d s e d' s' e' : Nat)
    (hne : d' ≠ d) :
    _has_time_conflict (_add_to_occupancy_map occ d s e) d' s' e'
      = _has_time_conflict occ d' s' e' := by
  simp [_has_time_conflict, occLookup_add_other occ d s e d' hne]

theorem hasConflict_of_add_false (occ : Occupancy) (d s e d' s' e' : Nat)
    (h : _has_time_conflict (_add_to_occupancy_map occ d s e) d' s' e' = false) :
    _has_time_conflict occ d' s' e' = false := by
  by_cases hd : d' = d
  · subst hd
    rw [hasConflict_add_same] at h
    exact (Bool.or_eq_false_iff.mp h).1
  · rw [hasConflict_add_other occ d s e d' s' e' hd] at h
    exact h

theorem overlap_of_add_false (occ : Occupancy) (d s e s' e' : Nat)
    (h : _has_time_conflict (_add_to_occupancy_map occ d s e) d s' e' = false) :
    _sessions_overlap s e s' e' = false := by
  rw [hasConflict_add_same] at h
  exact (Bool.or_eq_false_iff.mp h).2

theorem mem_occLookup_add (occ : Occupancy) (d0 s0 e0 d : Nat)
    (x : Nat × Nat) (h : x ∈ occLookup occ d) :
    x ∈ occLookup (_add_to_occupancy_map occ d0 s0 e0) d := by
  by_cases hd : d = d0
  · subst hd
    rw [occLookup_add_same]
    exact List.mem_append_left _ h
  · rw [occLookup_add_other occ d0 s0 e0 d hd]
    exact h

theorem self_mem_occLookup_add (occ : Occupancy) (d s e : Nat) :
    (s, e) ∈ occLookup (_add_to_occupancy_map occ d s e) d := by
  rw [occLookup_add_same]
  simp

theorem overlap_false_of_mem (occ : Occupancy) (d s e es ee : Nat)
    (hconf : _has_time_conflict occ d s e = false)
    (hm : (es, ee) ∈ occLookup occ d) :
    _sessions_overlap es ee s e = false := by
  cases hov : _sessions_overlap es ee s e with
  | false => rfl
  | true =>
    exfalso
    have htrue : _has_time_conflict occ d s e = true := by
      simp only [_has_time_conflict, List.any_eq_true]
      exact ⟨(es, ee), hm, hov⟩
    rw [htrue] at hconf
    simp at hconf

/- ==================== search loop lemmas ==================== -/

theorem skipWeekendFuel_le (fuel : Nat) : ∀ d : Nat, d ≤ skipWeekendFuel fuel d := by
  induction fuel with
  | zero => intro d; simp [skipWeekendFuel]
  | succ n ih =>
    intro d
    simp only [skipWeekendFuel]
    by_cases h : 5 ≤ d % 7
    · simp only [if_pos h]
      exact Nat.le_trans (Nat.le_succ d) (ih (d + 1))
    · simp [if_neg h]

theorem shift_date_le (original : Nat) (includeWeekends : Bool) :
    original ≤ _shift_date_by_one original includeWeekends := by
  simp only [_shift_date_by_one]
  by_cases h : includeWeekends = true
  · simp [h, Nat.le_succ]
  · simp only [Bool.not_eq_true] at h
    simp only [h, Bool.false_eq_true, if_false]
    exact Nat.le_trans (Nat.le_succ original) (skipWeekendFuel_le 2 (original + 1))

theorem findLoop_ok_checks (includeWeekends allowSameDay : Bool)
    (s e : Nat) (whm : List WorkingHoursEntry) (fh : List FreeTimeBlock)
    (occ : Occupancy) :
    ∀ fuel cand tried d,
      findNextAvailableLoop includeWeekends allowSameDay s e whm fh occ
        fuel cand tried = .ok d →
      _check_working_hours d s e whm includeWeekends = none ∧
      _check_free_time d s e fh = none ∧
      _has_time_conflict occ d s e = false := by
  intro fuel
  induction fuel with
  | zero =>
    intro cand tried d h
    simp [findNextAvailableLoop] at h
  | succ n ih =>
    intro cand tried d h
    simp only [findNextAvailableLoop] at h
    set c : Nat := if allowSameDay && !tried then cand
      else _shift_date_by_one cand includeWeekends with hc
    set t : Bool := if allowSameDay && !tried then true else tried with ht
    split at h
    · exact ih _ _ _ h
    · split at h
      · exact ih _ _ _ h
      · split at h
        · exact ih _ _ _ h
        · rename_i h1 h2 h3
          injection h with h
          subst h
          refine ⟨?_, ?_, ?_⟩
          · rw [← Option.not_isSome_iff_eq_none]
            simpa using h1
          · rw [← Option.not_isSome_iff_eq_none]
            simpa using h2
          · simpa using h3

theorem findLoop_ok_ge (includeWeekends allowSameDay : Bool)
    (s e : Nat) (whm : List WorkingHoursEntry) (fh : List FreeTimeBlock)
    (occ : Occupancy) :
    ∀ fuel cand tried d,
      findNextAvailableLoop includeWeekends allowSameDay s e whm fh occ
        fuel cand tried = .ok d →
      cand ≤ d := by
  intro fuel
  induction fuel with
  | zero =>
    intro cand tried d h
    simp [findNextAvailableLoop] at h
  | succ n ih =>
    intro cand tried d h
    simp only [findNextAvailableLoop] at h
    set c : Nat := if allowSameDay && !tried then cand
      else _shift_date_by_one cand includeWeekends with hc
    set t : Bool := if allowSameDay && !tried then true else tried with ht
    have hstep : cand ≤ c := by
      rw [hc]
      by_cases hcond : (allowSameDay && !tried) = true
      · simp [hcond]
      · simp only [hcond, if_false]
        exact shift_date_le cand includeWeekends
    split at h
    · exact Nat.le_trans hstep (ih _ _ _ h)
    · split at h
      · exact Nat.le_trans hstep (ih _ _ _ h)
      · split at h
        · exact Nat.le_trans hstep (ih _ _ _ h)
        · injection h with h
          subst h
          exact hstep

theorem findLoop_error_msg (includeWeekends allowSameDay : Bool)
    (s e : Nat) (whm : List WorkingHoursEntry) (fh : List FreeTimeBlock)
    (occ : Occupancy) :
    ∀ fuel cand tried m,
      findNextAvailableLoop includeWeekends allowSameDay s e whm fh occ
        fuel cand tried = .error m →
      m = "Unable to find a suitable date for cascade reschedule within a year." := by
  intro fuel
  induction fuel with
  | zero =>
    intro cand tried m h
    simp only [findNextAvailableLoop] at h
    exact (Except.error.inj h).symm
  | succ n ih =>
    intro cand tried m h
    simp only [findNextAvailableLoop] at h
    set c : Nat := if allowSameDay && !tried then cand
      else _shift_date_by_one cand includeWeekends with hc
    set t : Bool := if allowSameDay && !tried then true else tried with ht
    split at h
    · exact ih _ _ _ h
    · split at h
      · exact ih _ _ _ h
      · split at h
        · exact ih _ _ _ h
        · cases h

theorem find_next_ok_checks (startFrom : Nat) (includeWeekends allowSameDay : Bool)
    (s e : Nat) (whm : List WorkingHoursEntry) (fh : List FreeTimeBlock)
    (occ : Occupancy) (maxIterations d : Nat)
    (h : _find_next_available_date startFrom includeWeekends allowSameDay s e
      whm fh occ maxIterations = .ok d) :
    _check_working_hours d s e whm includeWeekends = none ∧
    _check_free_time d s e fh = none ∧
    _has_time_conflict occ d s e = false :=
  findLoop_ok_checks includeWeekends allowSameDay s e whm fh occ _ _ _ _ h

theorem find_next_ok_ge (startFrom : Nat) (includeWeekends allowSameDay : Bool)
    (s e : Nat) (whm : List WorkingHoursEntry) (fh : List FreeTimeBlock)
    (occ : Occupancy) (maxIterations d : Nat)
    (h : _find_next_available_date startFrom includeWeekends allowSameDay s e
      whm fh occ maxIterations = .ok d) :
    startFrom ≤ d :=
  findLoop_ok_ge includeWeekends allowSameDay s e whm fh occ _ _ _ _ h

theorem find_next_error_msg (startFrom : Nat) (includeWeekends allowSameDay : Bool)
    (s e : Nat) (whm : List WorkingHoursEntry) (fh : List FreeTimeBlock)
    (occ : Occupancy) (maxIterations : Nat) (m : String)
    (h : _find_next_available_date startFrom includeWeekends allowSameDay s e
      whm fh occ maxIterations = .error m) :
    m = "Unable to find a suitable date for cascade reschedule within a year." :=
  findLoop_error_msg includeWeekends allowSameDay s e whm fh occ _ _ _ _ h

/- ==================== placement loop lemmas ==================== -/

theorem placeBaseline_ge_today (originalDate today : Nat) (lastAssigned : Option Nat) :
    today ≤ placeBaseline originalDate today lastAssigned := by
  unfold placeBaseline
  rcases lastAssigned with _ | l
  · exact Nat.le_max_right originalDate today
  · by_cases h : max originalDate today < l
    · simp only [if_pos h]
      exact Nat.le_trans (Nat.le_max_right originalDate today) (Nat.le_of_lt h)
    · simp only [if_neg h]
      exact Nat.le_max_right originalDate today

theorem place_cons_inv (iw : Bool) (whm : List WorkingHoursEntry)
    (fh : List FreeTimeBlock) (today : Nat) (row : StoredSession)
    (rest : List StoredSession) (occ : Occupancy) (last : Option Nat) (idx : Nat)
    (updates : List ProposedUpdate) (occF : Occupancy)
    (h : placeSessions iw whm fh today (row :: rest) occ last idx
      = .ok (updates, occF)) :
    ∃ s e originalDate newDate updates',
      row.startTime = some s ∧ row.endTime = some e ∧ s < e ∧
      row.sessionDate = some originalDate ∧
      _find_next_available_date (placeBaseline originalDate today last) iw
        (idx != 0) s e whm fh occ = .ok newDate ∧
      placeSessions iw whm fh today rest (_add_to_occupancy_map occ newDate s e)
        (some newDate) (idx + 1) = .ok (updates', occF) ∧
      updates = { session := row, previousDate := originalDate,
                  newDate := newDate } :: updates' := by
  rcases hst : row.startTime with _ | s
  · simp [placeSessions, hst] at h
  rcases het : row.endTime with _ | e
  · simp [placeSessions, hst, het] at h
  simp only [placeSessions, hst, het] at h
  split at h
  · simp at h
  rcases hdate : row.sessionDate with _ | od
  · simp only [hdate] at h
    simp at h
  simp only [hdate] at h
  rcases hfind : _find_next_available_date (placeBaseline od today last) iw
      (idx != 0) s e whm fh occ with msg | nd
  · simp only [hfind] at h
    simp at h
  simp only [hfind] at h
  rcases hrec : placeSessions iw whm fh today rest
      (_add_to_occupancy_map occ nd s e) (some nd) (idx + 1) with msg | p
  · simp only [hrec] at h
    simp at h
  obtain ⟨updates', occF'⟩ := p
  simp only [hrec, Except.ok.injEq, Prod.mk.injEq] at h
  obtain ⟨h1, h2⟩ := h
  subst h1
  subst h2
  rename_i hnotle
  exact ⟨s, e, od, nd, updates', rfl, rfl, Nat.lt_of_not_le hnotle, rfl,
    hfind, hrec, rfl⟩

theorem place_ok_sessions (iw : Bool) (whm : List WorkingHoursEntry)
    (fh : List FreeTimeBlock) (today : Nat) :
    ∀ rows occ last idx updates occF,
      placeSessions iw whm fh today rows occ last idx = .ok (updates, occF) →
      updates.map (fun u => u.session) = rows := by
  intro rows
  induction rows with
  | nil =>
    intro occ last idx updates occF h
    simp only [placeSessions, Except.ok.injEq, Prod.mk.injEq] at h
    obtain ⟨h1, h2⟩ := h
    subst h1
    rfl
  | cons row rest ih =>
    intro occ last idx updates occF h
    obtain ⟨s, e, od, nd, updates', hst, het, hlt, hdate, hfind, hrec, hupd⟩ :=
      place_cons_inv iw whm fh today row rest occ last idx updates occF h
    subst hupd
    simp only [List.map_cons]
    rw [ih _ _ _ _ _ hrec]

theorem place_ok_noConflict (iw : Bool) (whm : List WorkingHoursEntry)
    (fh : List FreeTimeBlock) (today : Nat) :
    ∀ rows occ last idx updates occF,
      placeSessions iw whm fh today rows occ last idx = .ok (updates, occF) →
      ∀ u ∈ updates, ∀ s e, u.session.startTime = some s →
        u.session.endTime = some e →
        _has_time_conflict occ u.newDate s e = false := by
  intro rows
  induction rows with
  | nil =>
    intro occ last idx updates occF h u hu
    simp only [placeSessions, Except.ok.injEq, Prod.mk.injEq] at h
    obtain ⟨h1, h2⟩ := h
    subst h1
    simp at hu
  | cons row rest ih =>
    intro occ last idx updates occF h u hu s0 e0 hs0 he0
    obtain ⟨s, e, od, nd, updates', hst, het, hlt, hdate, hfind, hrec, hupd⟩ :=
      place_cons_inv iw whm fh today row rest occ last idx updates occF h
    subst hupd
    rcases List.mem_cons.mp hu with hu0 | hu'
    · subst hu0
      simp only at hs0 he0
      rw [hst] at hs0
      rw [het] at he0
      obtain rfl := Option.some.inj hs0
      obtain rfl := Option.some.inj he0
      exact (find_next_ok_checks _ _ _ _ _ _ _ _ _ _ hfind).2.2
    · have := ih _ _ _ _ _ hrec u hu' s0 e0 hs0 he0
      exact hasConflict_of_add_false occ nd s e u.newDate s0 e0 this

theorem place_ok_pairwise (iw : Bool) (whm : List WorkingHoursEntry)
    (fh : List FreeTimeBlock) (today : Nat) :
    ∀ rows occ last idx updates occF,
      placeSessions iw whm fh today rows occ last idx = .ok (updates, occF) →
      List.Pairwise (fun u v => u.newDate = v.newDate →
        ∀ s1 e1 s2 e2, u.session.startTime = some s1 →
          u.session.endTime = some e1 → v.session.startTime = some s2 →
          v.session.endTime = some e2 →
          _sessions_overlap s1 e1 s2 e2 = false) updates := by
  intro rows
  induction rows with
  | nil =>
    intro occ last idx updates occF h
    simp only [placeSessions, Except.ok.injEq, Prod.mk.injEq] at h
    obtain ⟨h1, h2⟩ := h
    subst h1
    exact List.Pairwise.nil
  | cons row rest ih =>
    intro occ last idx updates occF h
    obtain ⟨s, e, od, nd, updates', hst, het, hlt, hdate, hfind, hrec, hupd⟩ :=
      place_cons_inv iw whm fh today row rest occ last idx updates occF h
    subst hupd
    refine List.Pairwise.cons ?_ (ih _ _ _ _ _ hrec)
    intro v hv hnd s1 e1 s2 e2 h1 h2 h3 h4
    simp only at h1 h2 hnd
    rw [hst] at h1
    rw [het] at h2
    obtain rfl := Option.some.inj h1
    obtain rfl := Option.some.inj h2
    have hvconf := place_ok_noConflict iw whm fh today rest _ _ _ _ _ hrec
      v hv s2 e2 h3 h4
    rw [← hnd] at hvconf
    exact overlap_of_add_false occ nd s e s2 e2 hvconf

theorem place_ok_today_le (iw : Bool) (whm : List WorkingHoursEntry)
    (fh : List FreeTimeBlock) (today : Nat) :
    ∀ rows occ last idx updates occF,
      placeSessions iw whm fh today rows occ last idx = .ok (updates, occF) →
      ∀ u ∈ updates, today ≤ u.newDate := by
  intro rows
  induction rows with
  | nil =>
    intro occ last idx updates occF h u hu
    simp only [placeSessions, Except.ok.injEq, Prod.mk.injEq] at h
    obtain ⟨h1, h2⟩ := h
    subst h1
    simp at hu
  | cons row rest ih =>
    intro occ last idx updates occF h u hu
    obtain ⟨s, e, od, nd, updates', hst, het, hlt, hdate, hfind, hrec, hupd⟩ :=
      place_cons_inv iw whm fh today row rest occ last idx updates occF h
    subst hupd
    rcases List.mem_cons.mp hu with hu0 | hu'
    · subst hu0
      exact Nat.le_trans (placeBaseline_ge_today od today last)
        (find_next_ok_ge _ _ _ _ _ _ _ _ _ _ hfind)
    · exact ih _ _ _ _ _ hrec u hu'

/- ==================== occupancy builder lemmas ==================== -/

theorem mem_occLookup_step (excludeIds : List Nat) (occ : Occupancy)
    (r : StoredSession) (d : Nat) (x : Nat × Nat) (h : x ∈ occLookup occ d) :
    x ∈ occLookup (occupancyStep excludeIds occ r) d := by
  unfold occupancyStep
  split
  · exact h
  · rcases hd : r.sessionDate with _ | rd
    · simp only [hd]
      exact h
    rcases hs : r.startTime with _ | rs
    · simp only [hd, hs]
      exact h
    rcases he : r.endTime with _ | re
    · simp only [hd, hs, he]
      exact h
    simp only [hd, hs, he]
    exact mem_occLookup_add occ rd rs re d x h

theorem mem_occLookup_foldl (excludeIds : List Nat) :
    ∀ (rows : List StoredSession) (occ : Occupancy) (d : Nat) (x : Nat × Nat),
      x ∈ occLookup occ d →
      x ∈ occLookup (rows.foldl (occupancyStep excludeIds) occ) d := by
  intro rows
  induction rows with
  | nil =>
    intro occ d x h
    exact h
  | cons r rest ih =>
    intro occ d x h
    simp only [List.foldl_cons]
    exact ih _ _ _ (mem_occLookup_step excludeIds occ r d x h)

theorem mem_occLookup_foldl_insert (excludeIds : List Nat) :
    ∀ (rows : List StoredSession) (occ : Occupancy) (r : StoredSession)
      (d s e : Nat), r ∈ rows → r.id ∉ excludeIds →
      r.sessionDate = some d → r.startTime = some s → r.endTime = some e →
      (s, e) ∈ occLookup (rows.foldl (occupancyStep excludeIds) occ) d := by
  intro rows
  induction rows with
  | nil =>
    intro occ r d s e hmem
    simp at hmem
  | cons r0 rest ih =>
    intro occ r d s e hmem hex hd hs he
    simp only [List.foldl_cons]
    rcases List.mem_cons.mp hmem with heq | hmem'
    · subst heq
      apply mem_occLookup_foldl
      unfold occupancyStep
      rw [if_neg ?hcontains]
      case hcontains =>
        intro hcond
        exact hex (List.mem_of_elem_eq_true hcond)
      rw [hd, hs, he]
      exact self_mem_occLookup_add occ d s e
    · exact ih _ _ _ _ _ hmem' hex hd hs he

theorem mem_occLookup_build (db : Db) (tid : Nat) (excludeIds : List Nat)
    (startDate : Nat) (r : StoredSession) (d s e : Nat)
    (hmem : r ∈ db) (htid : r.therapistId = tid) (hstat : r.status = "scheduled")
    (hd : r.sessionDate = some d) (hge : startDate ≤ d)
    (hs : r.startTime = some s) (he : r.endTime = some e)
    (hex : r.id ∉ excludeIds) :
    (s, e) ∈ occLookup (_build_therapist_occupancy db tid excludeIds startDate) d := by
  unfold _build_therapist_occupancy
  apply mem_occLookup_foldl_insert excludeIds _ [] r d s e ?_ hex hd hs he
  rw [List.mem_filter]
  refine ⟨hmem, ?_⟩
  simp [htid, hstat, hd, hge]

/- ==================== persistence lemmas ==================== -/

/- The fields the cascade persistence step is not allowed to touch. -/
def sessionFrameEq (a b : StoredSession) : Prop :=
  a.id = b.id ∧ a.therapistId = b.therapistId ∧ a.childId = b.childId ∧
  a.startTime = b.startTime ∧ a.endTime = b.endTime ∧ a.status = b.status

theorem sessionFrameEq_refl (a : StoredSession) : sessionFrameEq a a :=
  ⟨rfl, rfl, rfl, rfl, rfl, rfl⟩

theorem sessionFrameEq_trans (a b c : StoredSession)
    (h1 : sessionFrameEq a b) (h2 : sessionFrameEq b c) : sessionFrameEq a c := by
  obtain ⟨i1, t1, c1, s1, e1, st1⟩ := h1
  obtain ⟨i2, t2, c2, s2, e2, st2⟩ := h2
  exact ⟨i1.trans i2, t1.trans t2, c1.trans c2, s1.trans s2, e1.trans e2,
    st1.trans st2⟩

theorem forall2_frame_refl : ∀ l : Db, List.Forall₂ sessionFrameEq l l
  | [] => .nil
  | x :: xs => .cons (sessionFrameEq_refl x) (forall2_frame_refl xs)

theorem forall2_frame_map (f : StoredSession → StoredSession)
    (h : ∀ r, sessionFrameEq r (f r)) :
    ∀ l : Db, List.Forall₂ sessionFrameEq l (l.map f)
  | [] => .nil
  | x :: xs => .cons (h x) (forall2_frame_map f h xs)

theorem forall2_frame_trans {a b : Db} (h1 : List.Forall₂ sessionFrameEq a b) :
    ∀ {c : Db}, List.Forall₂ sessionFrameEq b c →
      List.Forall₂ sessionFrameEq a c := by
  induction h1 with
  | nil =>
    intro c h2
    cases h2
    exact .nil
  | cons hx hrest ih =>
    intro c h2
    cases h2 with
    | cons hy hrest2 => exact .cons (sessionFrameEq_trans _ _ _ hx hy) (ih hrest2)

theorem persist_step_frame (uid tid now newDate : Nat) (r : StoredSession) :
    sessionFrameEq r
      (if r.id == uid && r.therapistId == tid then
        { r with sessionDate := some newDate, updatedAt := now }
      else r) := by
  split
  · exact ⟨rfl, rfl, rfl, rfl, rfl, rfl⟩
  · exact sessionFrameEq_refl r

theorem persist_ok_frame (tid now : Nat) :
    ∀ (updates : List ProposedUpdate) (db : Db) (infos : List UpdatedInfo)
      (dbF : Db), persistUpdates tid now updates db = (.ok infos, dbF) →
      List.Forall₂ sessionFrameEq db dbF := by
  intro updates
  induction updates with
  | nil =>
    intro db infos dbF h
    simp only [persistUpdates, Prod.mk.injEq] at h
    rw [← h.2]
    exact forall2_frame_refl db
  | cons u rest ih =>
    intro db infos dbF h
    simp only [persistUpdates] at h
    split at h
    · split at h
      · rename_i infos' dbF' hrec
        obtain ⟨h1, h2⟩ := Prod.mk.injEq .. |>.mp h
        subst h2
        exact forall2_frame_trans
          (forall2_frame_map _ (persist_step_frame u.session.id tid now u.newDate) db)
          (ih _ _ _ hrec)
      · simp at h
    · simp at h

theorem persist_ok_infos (tid now : Nat) :
    ∀ (updates : List ProposedUpdate) (db : Db) (infos : List UpdatedInfo)
      (dbF : Db), persistUpdates tid now updates db = (.ok infos, dbF) →
      infos = updates.map mkUpdatedInfo := by
  intro updates
  induction updates with
  | nil =>
    intro db infos dbF h
    simp only [persistUpdates, Prod.mk.injEq] at h
    exact (Except.ok.inj h.1).symm
  | cons u rest ih =>
    intro db infos dbF h
    simp only [persistUpdates] at h
    split at h
    · split at h
      · rename_i infos' dbF' hrec
        obtain ⟨h1, h2⟩ := Prod.mk.injEq .. |>.mp h
        have h1' := Except.ok.inj h1
        rw [← h1', List.map_cons]
        rw [ih _ _ _ hrec]
      · simp at h
    · simp at h

/- ==================== session lookup lemmas ==================== -/

theorem any_id_of_findSession :
    ∀ (db : Db) (sid : Nat) (sess : StoredSession),
      findSession db sid = some sess → db.any (fun r => r.id == sid) = true := by
  intro db
  induction db with
  | nil =>
    intro sid sess h
    simp [findSession] at h
  | cons r rest ih =>
    intro sid sess h
    simp only [List.any_cons]
    cases hc : r.id == sid with
    | true => simp
    | false =>
      simp only [findSession, List.find?_cons, hc] at h
      simp only [Bool.false_or]
      exact ih sid sess h

theorem findSession_cons_pos (r : StoredSession) (rest : Db) (sid : Nat)
    (hc : (r.id == sid) = true) : findSession (r :: rest) sid = some r := by
  simp [findSession, List.find?_cons, hc]

theorem findSession_map_update (sid : Nat) (g : StoredSession → StoredSession)
    (hg : ∀ r, (g r).id = r.id) :
    ∀ db : Db,
      findSession (db.map (fun r => if r.id = sid then g r else r)) sid
        = (findSession db sid).map g := by
  intro db
  induction db with
  | nil => rfl
  | cons r rest ih =>
    by_cases hr : r.id = sid
    · have hpred : ((if r.id = sid then g r else r).id == sid) = true := by
        rw [if_pos hr, hg r, hr]
        simp
      simp only [List.map_cons]
      rw [findSession_cons_pos _ _ _ hpred, findSession_cons_pos r rest sid
        (by rw [hr]; simp)]
      rw [if_pos hr]
      rfl
    · have hpred : ((if r.id = sid then g r else r).id == sid) = false := by
        rw [if_neg hr]
        simp [hr]
      simp only [List.map_cons, findSession, List.find?_cons, hpred]
      simp only [show (r.id == sid) = false by simp [hr]]
      exact ih

/- ==================== transition table lemma ==================== -/

theorem validate_iff_mem_table (f t : String) :
    _validate_status_transition f t = true ↔ (f, t) ∈ transitionTable := by
  by_cases h1 : f = "scheduled"
  · subst h1
    simp [_validate_status_transition, transitionTable, Prod.mk.injEq]
  by_cases h2 : f = "ongoing"
  · subst h2
    simp [_validate_status_transition, transitionTable, Prod.mk.injEq]
  · simp [_validate_status_transition, transitionTable, Prod.mk.injEq, h1, h2]

/- ==================== cascade inversion ==================== -/

theorem cascade_ok_inv (db : Db) (sid tid : Nat) (iw : Bool)
    (wh : List WorkingHoursEntry) (fh : List FreeTimeBlock) (today now : Nat)
    (res : CascadeResult) (db' : Db)
    (h : cascade_reschedule_sessions db sid tid iw wh fh today now
      = (.ok res, db')) :
    ∃ target targetDate childId batch occ0 updates occF infos,
      _fetch_session db tid sid = some target ∧
      target.sessionDate = some targetDate ∧
      target.childId = some childId ∧ ¬childId = 0 ∧
      batch = reorderAnchorFirst sid (sortRows
        (_fetch_child_sessions db tid childId (min targetDate today))) ∧
      occ0 = _build_therapist_occupancy db tid
        ((batch.filter (fun r => r.id ≠ 0)).map (fun r => r.id))
        (min (min targetDate today) today) ∧
      placeSessions iw wh fh today batch occ0 none 0 = .ok (updates, occF) ∧
      persistUpdates tid now updates db = (.ok infos, db') ∧
      res = { totalUpdated := infos.length, sessions := infos,
              includeWeekends := iw } := by
  rcases hfs : _fetch_session db tid sid with _ | target
  · simp [cascade_reschedule_sessions, hfs] at h
  rcases hdate : target.sessionDate with _ | targetDate
  · simp [cascade_reschedule_sessions, hfs, hdate] at h
  rcases hchild : target.childId with _ | childId
  · simp [cascade_reschedule_sessions, hfs, hdate, hchild] at h
  by_cases hcz : childId = 0
  · simp [cascade_reschedule_sessions, hfs, hdate, hchild, hcz] at h
  simp only [cascade_reschedule_sessions, hfs, hdate, hchild] at h
  rw [if_neg hcz] at h
  split at h
  · simp at h
  · split at h
    · simp at h
    · rename_i updates occF hplace
      split at h
      · rename_i infos dbF hpers
        simp only [Prod.mk.injEq, Except.ok.injEq] at h
        obtain ⟨hres, hdb⟩ := h
        subst hdb
        exact ⟨target, targetDate, childId, _, _, updates, occF, infos, rfl,
          hdate, hchild, hcz, rfl, rfl, hplace, hpers, hres.symm⟩
      · rename_i e dbF hpers
        simp at h

/- ==================== claim theorems ==================== -/

/-- C4: with includeWeekends = false, the working-hours check on any
date, session window and map behaves as follows: with no entry for that
weekday it fails exactly on Saturday or Sunday (weekday index 5 or 6)
and passes Monday through Friday; with a disabled entry it fails; with
an enabled entry carrying both bounds it fails exactly when the session
starts before the entry's start or ends after the entry's end. -/
theorem working_hours_check_cases (d s e : Nat) (whm : List WorkingHoursEntry) :
    (_get_working_hours_map whm (dayName d) = none →
      ((_check_working_hours d s e whm false).isSome ↔ 5 ≤ d % 7)) ∧
    (∀ entry, _get_working_hours_map whm (dayName d) = some entry →
      (entry.enabled = false → (_check_working_hours d s e whm false).isSome) ∧
      (entry.enabled = true → ∀ sb eb, entry.startTime = some sb →
        entry.endTime = some eb →
        ((_check_working_hours d s e whm false).isSome ↔ (s < sb ∨ eb < e)))) := by
  have hiw : ¬(5 ≤ d % 7 ∧ (false : Bool) = true) := by simp
  constructor
  · intro hnone
    simp only [_check_working_hours, if_neg hiw, hnone]
    by_cases hw : 5 ≤ d % 7
    · simp [hw]
    · simp [hw]
  · intro entry hentry
    constructor
    · intro hen
      simp only [_check_working_hours, if_neg hiw, hentry, hen, if_true]
      simp
    · intro hen sb eb hsb heb
      have hen' : ¬(entry.enabled = false) := by simp [hen]
      simp only [_check_working_hours, if_neg hiw, hentry, if_neg hen', hsb, heb]
      simp only [_check_wh_bounds]
      by_cases h1 : s < sb
      · simp [h1]
      · simp only [if_neg h1, _check_wh_end]
        by_cases h2 : eb < e
        · simp [h1, h2]
        · simp [h1, h2]

/-- Witness for C4 at a concrete Saturday (day 5) with an empty map:
the absent-entry branch fails exactly because the weekday is a
weekend. -/
theorem working_hours_check_cases_witness :
    _get_working_hours_map [] (dayName 5) = none ∧
    ((_check_working_hours 5 36000 37800 [] false).isSome ↔ 5 ≤ 5 % 7) :=
  ⟨rfl, (working_hours_check_cases 5 36000 37800 []).1 rfl⟩

/-- C6: the next-available-date search either fails with the explicit
"no suitable date within a year" error, or returns a date that passes
the working-hours check, the free-time check and the occupancy-conflict
check; it never returns a conflicting or otherwise invalid slot. -/
theorem find_next_explicit_or_valid (startFrom : Nat) (iw asd : Bool)
    (s e : Nat) (whm : List WorkingHoursEntry) (fh : List FreeTimeBlock)
    (occ : Occupancy) :
    _find_next_available_date startFrom iw asd s e whm fh occ
      = .error "Unable to find a suitable date for cascade reschedule within a year." ∨
    ∃ d, _find_next_available_date startFrom iw asd s e whm fh occ = .ok d ∧
      _check_working_hours d s e whm iw = none ∧
      _check_free_time d s e fh = none ∧
      _has_time_conflict occ d s e = false := by
  rcases hres : _find_next_available_date startFrom iw asd s e whm fh occ with m | d
  · left
    rw [find_next_error_msg startFrom iw asd s e whm fh occ 365 m hres]
  · right
    exact ⟨d, rfl, find_next_ok_checks startFrom iw asd s e whm fh occ 365 d hres⟩

/-- C2: for a session that exists with status `from`, updateStatus to
`to` succeeds with an accurate previous/current pair exactly when
(from, to) is in the transition table; for any pair outside the table
it fails with an error and leaves the sessions table untouched. -/
theorem update_status_matches_table (db : Db) (sid : Nat) (tid : Option Nat)
    (now : Nat) (fromS toS : String) (sess : StoredSession)
    (hfind : findSession db sid = some sess) (hstat : sess.status = fromS) :
    ((fromS, toS) ∈ transitionTable →
      ∃ db', update_session_status db sid toS tid now =
        (.ok (some { sessionId := sid, previousStatus := fromS,
                     currentStatus := toS, updatedAt := now,
                     updatedBy := tid }), db')) ∧
    ((fromS, toS) ∉ transitionTable →
      ∃ msg, update_session_status db sid toS tid now = (.error msg, db)) := by
  constructor
  · intro hmem
    have hval : _validate_status_transition sess.status toS = true := by
      rw [hstat]
      exact (validate_iff_mem_table fromS toS).mpr hmem
    refine ⟨db.map (fun r =>
      if r.id = sid then { r with status := toS, updatedAt := now } else r), ?_⟩
    simp only [update_session_status, hfind]
    rw [if_pos hval, if_pos (any_id_of_findSession db sid sess hfind), hstat]
  · intro hnmem
    have hval : _validate_status_transition sess.status toS = false := by
      rw [hstat]
      cases hvb : _validate_status_transition fromS toS with
      | false => rfl
      | true => exact absurd ((validate_iff_mem_table fromS toS).mp hvb) hnmem
    have hval' : ¬(_validate_status_transition sess.status toS = true) := by
      rw [hval]
      simp
    refine ⟨"Database error: Invalid status transition: " ++ sess.status ++
      " -> " ++ toS, ?_⟩
    simp only [update_session_status, hfind]
    rw [if_neg hval']

def sessW2 : StoredSession :=
  { id := 1, therapistId := 1, childId := some 2, sessionDate := some 0,
    startTime := some 100, endTime := some 200, status := "scheduled",
    therapistNotes := none, updatedAt := 0, studentName := "S" }

/-- Witness for C2: a concrete scheduled session accepts the tabled
scheduled -> ongoing transition and would reject any untabled one. -/
theorem update_status_matches_table_witness :
    findSession [sessW2] 1 = some sessW2 ∧ sessW2.status = "scheduled" ∧
    ((("scheduled", "ongoing") ∈ transitionTable →
      ∃ db', update_session_status [sessW2] 1 "ongoing" (some 1) 9 =
        (.ok (some { sessionId := 1, previousStatus := "scheduled",
                     currentStatus := "ongoing", updatedAt := 9,
                     updatedBy := some 1 }), db')) ∧
     (("scheduled", "ongoing") ∉ transitionTable →
      ∃ msg, update_session_status [sessW2] 1 "ongoing" (some 1) 9 =
        (.error msg, [sessW2]))) :=
  ⟨rfl, rfl,
    update_status_matches_table [sessW2] 1 (some 1) 9 "scheduled" "ongoing"
      sessW2 rfl rfl⟩

/-- C7: when the anchor session resolves (exists, parsable date, child
present) but the learner has no upcoming scheduled sessions from
min(anchor date, today) onward, the cascade fails with the "no upcoming
sessions" error and the sessions table is left exactly as it was; it
never succeeds with an empty result. -/
theorem cascade_no_upcoming_fails (db : Db) (sid tid : Nat) (iw : Bool)
    (wh : List WorkingHoursEntry) (fh : List FreeTimeBlock) (today now : Nat)
    (target : StoredSession) (targetDate childId : Nat)
    (hfetch : _fetch_session db tid sid = some target)
    (hdate : target.sessionDate = some targetDate)
    (hchild : target.childId = some childId) (hcz : ¬childId = 0)
    (hupc : _fetch_child_sessions db tid childId (min targetDate today) = []) :
    cascade_reschedule_sessions db sid tid iw wh fh today now
      = (.error "No upcoming scheduled sessions found to reschedule.", db) := by
  simp only [cascade_reschedule_sessions, hfetch, hdate, hchild]
  rw [if_neg hcz]
  simp only [hupc, List.isEmpty_nil, if_true]

def sessC7 : StoredSession :=
  { id := 4, therapistId := 2, childId := some 9, sessionDate := some 10,
    startTime := some 100, endTime := some 200, status := "cancelled",
    therapistNotes := none, updatedAt := 0, studentName := "C" }

/-- Witness for C7: an anchor that was concurrently cancelled leaves the
learner with zero upcoming scheduled sessions, so the cascade fails
without touching the table. -/
theorem cascade_no_upcoming_fails_witness :
    _fetch_session [sessC7] 2 4 = some sessC7 ∧
    sessC7.sessionDate = some 10 ∧ sessC7.childId = some 9 ∧
    _fetch_child_sessions [sessC7] 2 9 (min 10 3) = [] ∧
    cascade_reschedule_sessions [sessC7] 4 2 false [] [] 3 0
      = (.error "No upcoming scheduled sessions found to reschedule.", [sessC7]) :=
  ⟨rfl, rfl, rfl, rfl,
    cascade_no_upcoming_fails [sessC7] 4 2 false [] [] 3 0 sessC7 10 9
      rfl rfl rfl (by decide) rfl⟩

/-- C8: a successful cascade reschedule leaves every row of the sessions
table in one-to-one correspondence with the original table, preserving
id, therapist, learner, start time, end time and status; only the
session date (and the updated_at token) can differ. -/
theorem cascade_preserves_frame (db : Db) (sid tid : Nat) (iw : Bool)
    (wh : List WorkingHoursEntry) (fh : List FreeTimeBlock) (today now : Nat)
    (res : CascadeResult) (db' : Db)
    (hok : cascade_reschedule_sessions db sid tid iw wh fh today now
      = (.ok res, db')) :
    List.Forall₂ sessionFrameEq db db' := by
  obtain ⟨_, _, _, _, _, updates, _, infos, _, _, _, _, _, _, hplace, hpers, _⟩ :=
    cascade_ok_inv db sid tid iw wh fh today now res db' hok
  exact persist_ok_frame tid now updates db infos db' hpers

def sessionW : StoredSession :=
  { id := 10, therapistId := 1, childId := some 3, sessionDate := some 0,
    startTime := some 600, endTime := some 1200, status := "scheduled",
    therapistNotes := none, updatedAt := 0, studentName := "W" }

def dbW : Db := [sessionW]

def resW : CascadeResult :=
  { totalUpdated := 1,
    sessions := [{ sessionId := 10, studentName := "W", previousDate := 0,
                   newDate := 1, startTime := some 600, endTime := some 1200 }],
    includeWeekends := false }

def dbW' : Db := [{ sessionW with sessionDate := some 1, updatedAt := 5 }]

/-- Witness for C8: the concrete one-session cascade moves Monday (day 0)
to Tuesday (day 1) and the resulting table is frame-equal to the
original. -/
theorem cascade_preserves_frame_witness :
    cascade_reschedule_sessions dbW 10 1 false [] [] 0 5 = (.ok resW, dbW') ∧
    List.Forall₂ sessionFrameEq dbW dbW' :=
  ⟨by decide, cascade_preserves_frame dbW 10 1 false [] [] 0 5 resW dbW'
    (by decide)⟩

/-- C1: for every cascade-reschedule invocation that returns
successfully, no two placed sessions occupy overlapping [start, end)
windows on the same resulting date (each chosen interval is folded into
the shared occupancy map before the next placement), and no placed
session overlaps any other scheduled session of the same therapist in
the table (those sessions are exactly what the occupancy map was built
from). -/
theorem cascade_no_double_booking (db : Db) (sid tid : Nat) (iw : Bool)
    (wh : List WorkingHoursEntry) (fh : List FreeTimeBlock) (today now : Nat)
    (res : CascadeResult) (db' : Db)
    (hok : cascade_reschedule_sessions db sid tid iw wh fh today now
      = (.ok res, db')) :
    List.Pairwise (fun i1 i2 => i1.newDate = i2.newDate →
      ∀ s1 e1 s2 e2, i1.startTime = some s1 → i1.endTime = some e1 →
        i2.startTime = some s2 → i2.endTime = some e2 →
        _sessions_overlap s1 e1 s2 e2 = false) res.sessions ∧
    ∀ i ∈ res.sessions, ∀ r ∈ db, r.therapistId = tid →
      r.status = "scheduled" → (∀ i2 ∈ res.sessions, r.id ≠ i2.sessionId) →
      r.sessionDate = some i.newDate →
      ∀ rs re s e, r.startTime = some rs → r.endTime = some re →
        i.startTime = some s → i.endTime = some e →
        _sessions_overlap rs re s e = false := by
  obtain ⟨target, targetDate, childId, batch, occ0, updates, occF, infos,
    hfs, hdate, hchild, hcz, hbatch, hocc0, hplace, hpers, hres⟩ :=
    cascade_ok_inv db sid tid iw wh fh today now res db' hok
  have hinfos : infos = updates.map mkUpdatedInfo :=
    persist_ok_infos tid now updates db infos db' hpers
  have hsess : res.sessions = updates.map mkUpdatedInfo := by
    rw [hres]
    exact hinfos
  constructor
  · rw [hsess]
    refine List.pairwise_map.mpr ?_
    have hp := place_ok_pairwise iw wh fh today batch occ0 none 0 updates occF
      hplace
    exact hp.imp (fun h => h)
  · intro i hi r hr htid hstat hnotin hrdate rs re s e hrs hre his hie
    rw [hsess] at hi
    obtain ⟨u, hu, hiu⟩ := List.mem_map.mp hi
    subst hiu
    have hsessions := place_ok_sessions iw wh fh today batch occ0 none 0
      updates occF hplace
    have hnotex : r.id ∉ (batch.filter (fun b => b.id ≠ 0)).map (fun b => b.id) := by
      intro hmemEx
      obtain ⟨b, hb, hbid⟩ := List.mem_map.mp hmemEx
      have hbbatch : b ∈ batch := (List.mem_filter.mp hb).1
      rw [← hsessions] at hbbatch
      obtain ⟨u2, hu2, hbu2⟩ := List.mem_map.mp hbbatch
      refine hnotin (mkUpdatedInfo u2) ?_ ?_
      · rw [hsess]
        exact List.mem_map_of_mem mkUpdatedInfo hu2
      · show r.id = u2.session.id
        rw [hbu2, hbid]
    have htoday : today ≤ u.newDate :=
      place_ok_today_le iw wh fh today batch occ0 none 0 updates occF hplace u hu
    have hge : min (min targetDate today) today ≤ u.newDate :=
      Nat.le_trans (Nat.min_le_right _ _) htoday
    have hocc := mem_occLookup_build db tid
      ((batch.filter (fun b => b.id ≠ 0)).map (fun b => b.id))
      (min (min targetDate today) today) r u.newDate rs re hr htid hstat
      hrdate hge hrs hre hnotex
    rw [← hocc0] at hocc
    have hconf := place_ok_noConflict iw wh fh today batch occ0 none 0 updates
      occF hplace u hu s e his hie
    exact overlap_false_of_mem occ0 u.newDate s e rs re hconf hocc

/-- Witness for C1: the concrete one-session cascade succeeds and its
result satisfies both non-overlap conjuncts. -/
theorem cascade_no_double_booking_witness :
    cascade_reschedule_sessions dbW 10 1 false [] [] 0 5 = (.ok resW, dbW') ∧
    (List.Pairwise (fun i1 i2 => i1.newDate = i2.newDate →
      ∀ s1 e1 s2 e2, i1.startTime = some s1 → i1.endTime = some e1 →
        i2.startTime = some s2 → i2.endTime = some e2 →
        _sessions_overlap s1 e1 s2 e2 = false) resW.sessions ∧
    ∀ i ∈ resW.sessions, ∀ r ∈ dbW, r.therapistId = 1 →
      r.status = "scheduled" → (∀ i2 ∈ resW.sessions, r.id ≠ i2.sessionId) →
      r.sessionDate = some i.newDate →
      ∀ rs re s e, r.startTime = some rs → r.endTime = some re →
        i.startTime = some s → i.endTime = some e →
        _sessions_overlap rs re s e = false) :=
  ⟨by decide,
    cascade_no_double_booking dbW 10 1 false [] [] 0 5 resW dbW' (by decide)⟩

def sessionC3a : StoredSession :=
  { id := 1, therapistId := 1, childId := some 5, sessionDate := some 7,
    startTime := some 36000, endTime := some 37800, status := "scheduled",
    therapistNotes := none, updatedAt := 0, studentName := "Learner A" }

def sessionC3b : StoredSession :=
  { sessionC3a with id := 2, sessionDate := some 8 }

def dbC3 : Db := [sessionC3a, sessionC3b]

def whC3 : List WorkingHoursEntry :=
  [{ day := "Monday", enabled := true, startTime := some 32400,
     endTime := some 61200 }]

/-- C3: day 7 is a Monday and days 8 and 9 are the following Tuesday and
Wednesday; times are 10:00-10:30 (36000-37800 seconds) and the Monday
working window is 09:00-17:00.  For any today no later than the anchor's
Monday and any timestamp token, the cascade places the anchor (session 1,
Monday 10:00-10:30) on Tuesday day 8 and the learner's other session
(session 2, Tuesday 10:00-10:30) on Wednesday day 9 - a date at least one
day past Tuesday, so it cannot collide with the anchor's new Tuesday
slot. -/
theorem cascade_scenario_monday_anchor (today now : Nat) (h : today ≤ 7) :
    (cascade_reschedule_sessions dbC3 1 1 false whC3 [] today now).1.toOption.map
      (fun r => (r.totalUpdated, r.includeWeekends,
        r.sessions.map (fun i => (i.sessionId, i.previousDate, i.newDate)))) =
    some (2, false, [(1, 7, 8), (2, 8, 9)]) := by
  interval_cases today <;> rfl

/-- Witness for C3 at today = 7 (the anchor's own Monday). -/
theorem cascade_scenario_monday_anchor_witness :
    7 ≤ 7 ∧
    (cascade_reschedule_sessions dbC3 1 1 false whC3 [] 7 0).1.toOption.map
      (fun r => (r.totalUpdated, r.includeWeekends,
        r.sessions.map (fun i => (i.sessionId, i.previousDate, i.newDate)))) =
    some (2, false, [(1, 7, 8), (2, 8, 9)]) :=
  ⟨Nat.le_refl 7, cascade_scenario_monday_anchor 7 0 (Nat.le_refl 7)⟩

/-- C5: for a login check whose store query returns at least one session
today (ordered by start time), with the first session's start parsing to
st: a login strictly after st yields a `late` notification carrying
floor((now - st) / 60) minutes and flips that session from scheduled to
ongoing exactly when its status is still scheduled (otherwise nothing is
written); a login at or before st yields an `upcoming` notification
carrying floor((st - now) / 60) minutes and changes no session state. -/
theorem login_punctuality (db : Db) (tid : Nat) (first : StoredSession)
    (rest : List StoredSession) (nowSecs nowStamp st : Nat)
    (sess : StoredSession) (hstart : first.startTime = some st)
    (hfind : findSession db first.id = some sess)
    (hstat : sess.status = first.status) :
    (st < nowSecs → first.status = "scheduled" →
      ((check_sessions_on_login db tid (.ok (first :: rest)) nowSecs
          nowStamp).1.sessionsUpdated = 1 ∧
       ((check_sessions_on_login db tid (.ok (first :: rest)) nowSecs
          nowStamp).1.notificationPayload.map
            (fun p => (p.notificationType, p.minutesLate)))
         = some ("late", some ((nowSecs - st) / 60)) ∧
       ((findSession (check_sessions_on_login db tid (.ok (first :: rest))
          nowSecs nowStamp).2 first.id).map (fun r => r.status))
         = some "ongoing")) ∧
    (st < nowSecs → ¬first.status = "scheduled" →
      ((check_sessions_on_login db tid (.ok (first :: rest)) nowSecs
          nowStamp).1.sessionsUpdated = 0 ∧
       ((check_sessions_on_login db tid (.ok (first :: rest)) nowSecs
          nowStamp).1.notificationPayload.map
            (fun p => (p.notificationType, p.minutesLate)))
         = some ("late", some ((nowSecs - st) / 60)) ∧
       (check_sessions_on_login db tid (.ok (first :: rest)) nowSecs
          nowStamp).2 = db)) ∧
    (nowSecs ≤ st →
      ((check_sessions_on_login db tid (.ok (first :: rest)) nowSecs
          nowStamp).1.sessionsUpdated = 0 ∧
       ((check_sessions_on_login db tid (.ok (first :: rest)) nowSecs
          nowStamp).1.notificationPayload.map
            (fun p => (p.notificationType, p.minutesRemaining)))
         = some ("upcoming", some ((st - nowSecs) / 60)) ∧
       (check_sessions_on_login db tid (.ok (first :: rest)) nowSecs
          nowStamp).2 = db)) := by
  have hgetD : first.startTime.getD nowSecs = st := by
    rw [hstart]
    rfl
  refine ⟨?_, ?_, ?_⟩
  · intro hlt hsch
    have hval : _validate_status_transition sess.status "ongoing" = true := by
      rw [hstat, hsch]
      rfl
    have hany := any_id_of_findSession db first.id sess hfind
    have hupd : update_session_status db first.id "ongoing" (some tid) nowStamp
        = (.ok (some { sessionId := first.id, previousStatus := sess.status,
                       currentStatus := "ongoing", updatedAt := nowStamp,
                       updatedBy := some tid }),
           db.map (fun r => if r.id = first.id then
             { r with status := "ongoing", updatedAt := nowStamp } else r)) := by
      simp only [update_session_status, hfind]
      rw [if_pos hval, if_pos hany]
    simp only [check_sessions_on_login, hgetD]
    rw [if_pos hlt, if_pos hsch, hupd]
    refine ⟨rfl, rfl, ?_⟩
    rw [findSession_map_update first.id
      (fun r => { r with status := "ongoing", updatedAt := nowStamp })
      (fun r => rfl) db]
    rw [hfind]
    rfl
  · intro hlt hnsch
    simp only [check_sessions_on_login, hgetD]
    rw [if_pos hlt, if_neg hnsch]
    exact ⟨rfl, rfl, rfl⟩
  · intro hle
    have hnlt : ¬st < nowSecs := Nat.not_lt.mpr hle
    simp only [check_sessions_on_login, hgetD]
    rw [if_neg hnlt]
    exact ⟨rfl, rfl, rfl⟩

def sessC5 : StoredSession :=
  { id := 1, therapistId := 1, childId := some 2, sessionDate := some 0,
    startTime := some 32400, endTime := some 34200, status := "scheduled",
    therapistNotes := none, updatedAt := 0, studentName := "Kid" }

def dbC5 : Db := [sessC5]

/-- Witness for C5: first session at 09:00 (32400 s), login at 09:15
(33300 s): the late branch fires with minutes_late = 15, sessions
updated = 1, and the session becomes ongoing. -/
theorem login_punctuality_witness :
    32400 < 33300 ∧
    ((check_sessions_on_login dbC5 1 (.ok (sessC5 :: [])) 33300
        77).1.sessionsUpdated = 1 ∧
     ((check_sessions_on_login dbC5 1 (.ok (sessC5 :: [])) 33300
        77).1.notificationPayload.map
          (fun p => (p.notificationType, p.minutesLate)))
       = some ("late", some 15) ∧
     ((findSession (check_sessions_on_login dbC5 1 (.ok (sessC5 :: [])) 33300
        77).2 sessC5.id).map (fun r => r.status)) = some "ongoing") :=
  ⟨by decide,
    (login_punctuality dbC5 1 sessC5 [] 33300 77 32400 sessC5 rfl rfl rfl).1
      (by decide) rfl⟩

/-- C9: when the session is ongoing (so the ongoing -> completed
transition succeeds), complete_session returns its successful
status-change response and leaves the session completed for EVERY
possible assessment-aggregation body, including bodies that fail: the
hook's error is swallowed by _update_assessment_details_for_child and
never aborts the completion. -/
theorem complete_session_swallows_hook {σ : Type} (db : Db) (children : σ)
    (sid : Nat) (tid : Option Nat) (notes : Option String) (now : Nat)
    (body : Db → σ → Except String σ) (sess : StoredSession)
    (hfind : findSession db sid = some sess) (hstat : sess.status = "ongoing") :
    ∃ resp db' ch',
      complete_session db children sid tid notes now body
        = (.ok (some resp), db', ch') ∧
      resp.previousStatus = "ongoing" ∧ resp.currentStatus = "completed" ∧
      (findSession db' sid).map (fun r => r.status) = some "completed" := by
  have hval : _validate_status_transition sess.status "completed" = true := by
    rw [hstat]
    rfl
  have hany := any_id_of_findSession db sid sess hfind
  have hupd : update_session_status db sid "completed" tid now
      = (.ok (some { sessionId := sid, previousStatus := sess.status,
                     currentStatus := "completed", updatedAt := now,
                     updatedBy := tid }),
         db.map (fun r => if r.id = sid then
           { r with status := "completed", updatedAt := now } else r)) := by
    simp only [update_session_status, hfind]
    rw [if_pos hval, if_pos hany]
  rcases notes with _ | ntext
  · have hcomp : complete_session db children sid tid none now body
        = (.ok (some { sessionId := sid, previousStatus := sess.status,
                       currentStatus := "completed", updatedAt := now,
                       updatedBy := tid }),
           db.map (fun r => if r.id = sid then
             { r with status := "completed", updatedAt := now } else r),
           _update_assessment_details_for_child
             (body (db.map (fun r => if r.id = sid then
               { r with status := "completed", updatedAt := now } else r))
               children) children) := by
      simp only [complete_session, hupd]
    refine ⟨_, _, _, hcomp, hstat, rfl, ?_⟩
    rw [findSession_map_update sid
      (fun r => { r with status := "completed", updatedAt := now })
      (fun r => rfl) db]
    rw [hfind]
    rfl
  · have hcomp : complete_session db children sid tid (some ntext) now body
        = (.ok (some { sessionId := sid, previousStatus := sess.status,
                       currentStatus := "completed", updatedAt := now,
                       updatedBy := tid }),
           (db.map (fun r => if r.id = sid then
             { r with status := "completed", updatedAt := now } else r)).map
             (fun r => if r.id = sid then
               { r with therapistNotes := some ntext, updatedAt := now } else r),
           _update_assessment_details_for_child
             (body ((db.map (fun r => if r.id = sid then
               { r with status := "completed", updatedAt := now } else r)).map
                 (fun r => if r.id = sid then
                   { r with therapistNotes := some ntext, updatedAt := now }
                 else r)) children) children) := by
      simp only [complete_session, hupd]
    refine ⟨_, _, _, hcomp, hstat, rfl, ?_⟩
    rw [findSession_map_update sid
      (fun r => { r with therapistNotes := some ntext, updatedAt := now })
      (fun r => rfl)]
    rw [findSession_map_update sid
      (fun r => { r with status := "completed", updatedAt := now })
      (fun r => rfl) db]
    rw [hfind]
    rfl

def sessC9 : StoredSession :=
  { id := 7, therapistId := 3, childId := some 4, sessionDate := some 2,
    startTime := some 100, endTime := some 200, status := "ongoing",
    therapistNotes := none, updatedAt := 0, studentName := "N" }

/-- Witness for C9: completing the concrete ongoing session with a hook
body that always fails still succeeds and leaves the session
completed. -/
theorem complete_session_swallows_hook_witness :
    findSession [sessC9] 7 = some sessC9 ∧ sessC9.status = "ongoing" ∧
    ∃ resp db' ch',
      complete_session [sessC9] (0 : Nat) 7 (some 3) none 11
        (fun _dbv _ch => .error "assessment aggregation failed")
        = (.ok (some resp), db', ch') ∧
      resp.previousStatus = "ongoing" ∧ resp.currentStatus = "completed" ∧
      (findSession db' 7).map (fun r => r.status) = some "completed" :=
  ⟨rfl, rfl,
    complete_session_swallows_hook [sessC9] (0 : Nat) 7 (some 3) none 11
      (fun _dbv _ch => .error "assessment aggregation failed") sessC9 rfl rfl⟩

/-- C10: the login check never propagates a failure to its caller: a
failing store query is turned into a result whose success flag is
false, and every result with success = false carries a null
notification payload and sessions_updated = 0 (the shape of the single
except-branch in the source). -/
theorem login_check_failure_shape (db : Db) (tid : Nat)
    (fetchOutcome : Except String (List StoredSession)) (nowSecs nowStamp : Nat) :
    ((check_sessions_on_login db tid fetchOutcome nowSecs
        nowStamp).1.success = false →
      (check_sessions_on_login db tid fetchOutcome nowSecs
        nowStamp).1.notificationPayload = none ∧
      (check_sessions_on_login db tid fetchOutcome nowSecs
        nowStamp).1.sessionsUpdated = 0) ∧
    (∀ e, fetchOutcome = .error e →
      (check_sessions_on_login db tid fetchOutcome nowSecs
        nowStamp).1.success = false) := by
  rcases fetchOutcome with e | rows
  · exact ⟨fun _ => ⟨rfl, rfl⟩, fun e' _ => rfl⟩
  · constructor
    · rcases rows with _ | ⟨first, rest⟩
      · intro hfail
        simp [check_sessions_on_login] at hfail
      · intro hfail
        by_cases hlt : first.startTime.getD nowSecs < nowSecs
        · by_cases hsch : first.status = "scheduled"
          · rcases hupd : update_session_status db first.id "ongoing" (some tid)
                nowStamp with ⟨exc, dbU⟩
            cases exc with
            | error e2 =>
              have hcheck : check_sessions_on_login db tid (.ok (first :: rest))
                  nowSecs nowStamp = (loginFailure e2, dbU) := by
                simp only [check_sessions_on_login]
                rw [if_pos hlt, if_pos hsch, hupd]
              rw [hcheck]
              exact ⟨rfl, rfl⟩
            | ok o =>
              have hcheck : check_sessions_on_login db tid (.ok (first :: rest))
                  nowSecs nowStamp
                  = (loginSuccessLate first (first :: rest).length nowSecs
                      nowStamp (first.startTime.getD nowSecs) 1, dbU) := by
                simp only [check_sessions_on_login]
                rw [if_pos hlt, if_pos hsch, hupd]
              rw [hcheck] at hfail
              simp [loginSuccessLate] at hfail
          · have hcheck : check_sessions_on_login db tid (.ok (first :: rest))
                nowSecs nowStamp
                = (loginSuccessLate first (first :: rest).length nowSecs
                    nowStamp (first.startTime.getD nowSecs) 0, db) := by
              simp only [check_sessions_on_login]
              rw [if_pos hlt, if_neg hsch]
            rw [hcheck] at hfail
            simp [loginSuccessLate] at hfail
        · have hcheck : check_sessions_on_login db tid (.ok (first :: rest))
              nowSecs nowStamp
              = (loginSuccessUpcoming first (first :: rest).length nowSecs
                  nowStamp (first.startTime.getD nowSecs), db) := by
            simp only [check_sessions_on_login]
            rw [if_neg hlt]
          rw [hcheck] at hfail
          simp [loginSuccessUpcoming] at hfail
    · intro e he
      simp at he

/-- Witness for C10: a failing store query yields the failure-shaped
result with no notification and zero updates. -/
theorem login_check_failure_shape_witness :
    (check_sessions_on_login [] 1 (.error "store unavailable") 0
      0).1.success = false ∧
    (check_sessions_on_login [] 1 (.error "store unavailable") 0
      0).1.notificationPayload = none ∧
    (check_sessions_on_login [] 1 (.error "store unavailable") 0
      0).1.sessionsUpdated = 0 := by
  have h := login_check_failure_shape [] 1 (.error "store unavailable") 0 0
  have hfail := h.2 "store unavailable" rfl
  exact ⟨hfail, (h.1 hfail).1, (h.1 hfail).2⟩
